import Mathlib

/-!
Verification of the mattress price-tracker application core (`app.py`):
the price-check job, the schedule store, the price-history store, the
polling scheduler fragment, and the endpoint dispatch of `main`.

Machine integers do not occur; Python date/time components are modelled
as `Nat` fields, prices as `Rat` (the source carries them as decimal
amounts with two fractional digits).  Fallible operations take an explicit
`fault` flag standing for the exception paths that the Python code catches
(database errors, network errors); the catch branches return the same
values the Python handlers produce.
-/

namespace PriceTracker

/-- time-of-day value (`datetime.time`): hour, minute, second. -/
structure Time where
  hour : Nat
  minute : Nat
  second : Nat
deriving DecidableEq

/-- calendar date (`datetime.date`). -/
structure Date where
  year : Nat
  month : Nat
  day : Nat
deriving DecidableEq

/-- wall-clock instant (`datetime.datetime`): date plus time-of-day. -/
structure DateTime where
  date : Date
  hour : Nat
  minute : Nat
  second : Nat
deriving DecidableEq

/-- two-digit zero padding, as produced by `strftime` fields such as
`%H`, `%M`, `%S`, `%m`, `%d` for values below 100. -/
def pad2 (n : Nat) : String :=
  if n < 10 then "0" ++ toString n else toString n

/-- four-digit zero padding, as produced for the year by `str(date)`. -/
def pad4 (n : Nat) : String :=
  if n < 10 then "000" ++ toString n
  else if n < 100 then "00" ++ toString n
  else if n < 1000 then "0" ++ toString n
  else toString n

/-- `strftime("%H:%M")` on a time value: seconds are dropped. -/
def Time.hm (t : Time) : String :=
  pad2 t.hour ++ ":" ++ pad2 t.minute

/-- `str(date)`, the ISO form `YYYY-MM-DD` used by `f-strings`. -/
def Date.iso (d : Date) : String :=
  pad4 d.year ++ "-" ++ pad2 d.month ++ "-" ++ pad2 d.day

/-- the slot key built in `scheduled_check_fragment`:
`run_key`, the f-string of now.date(), a dash, and the schedule time at hour-minute resolution. -/
def run_key (d : Date) (t : Time) : String :=
  d.iso ++ "-" ++ t.hm

/-- decimal price amount (Python carries it as a float read from a decimal
string; no arithmetic on it occurs in the verified core). -/
abbrev Price := Rat

/-- observable side effects of one price check, in the order they are
issued: the scrape (`get_mattress_price`), the history insert
(`update_price_history`, with its success flag), and the push notification
(`send_nfty_notification`).  Operator toasts are not modelled. -/
inductive Effect where
  | fetch (result : Option Price)
  | append (price : Price) (ok : Bool)
  | notify (price : Price)
deriving DecidableEq

/-- whether an effect is the notification. -/
def Effect.isNotify : Effect → Bool
  | Effect.notify _ => true
  | _ => false

/-- outcome environment for one check: what `get_mattress_price` returns
(`none` models every caught scrape failure) and whether
the insert of `update_price_history` succeeds. -/
structure JobEnv where
  fetchResult : Option Price
  appendOk : Bool
deriving DecidableEq

/-- `run_price_check_job`: fetch the price; on `None` stop; otherwise
append to history and, only if the append reported success, notify. -/
def run_price_check_job (env : JobEnv) : List Effect :=
  match env.fetchResult with
  | none => [Effect.fetch none]
  | some price =>
    if env.appendOk then
      [Effect.fetch (some price), Effect.append price true, Effect.notify price]
    else
      [Effect.fetch (some price), Effect.append price false]

/-- the `Check Price Now` button handler in `main`: fetch the price; if it
is not `None`, call `update_price_history` (its result only selects the
rerun/error message) and rerun.  It never notifies. -/
def check_price_now (env : JobEnv) : List Effect :=
  match env.fetchResult with
  | none => [Effect.fetch none]
  | some price => [Effect.fetch (some price), Effect.append price env.appendOk]

/-- one row of the `schedule_settings` table
(`id INT PRIMARY KEY, check_time TIME, is_enabled BOOLEAN`). -/
structure ScheduleRow where
  id : Nat
  check_time : Time
  is_enabled : Bool
deriving DecidableEq

/-- the SQL statement of `save_schedule`:
`INSERT ... VALUES (1, t, e) ON CONFLICT (id) DO UPDATE SET ...` — update
every row whose primary key is 1 if one exists, otherwise insert one row. -/
def upsert_schedule (tbl : List ScheduleRow) (t : Time) (e : Bool) :
    List ScheduleRow :=
  if tbl.any (fun r => r.id == 1) then
    tbl.map (fun r =>
      if r.id == 1 then { r with check_time := t, is_enabled := e } else r)
  else
    tbl ++ [{ id := 1, check_time := t, is_enabled := e }]

/-- `save_schedule`: run the upsert; on a caught database error (`fault`)
report it and leave the table unchanged (nothing was committed). -/
def save_schedule (fault : Bool) (tbl : List ScheduleRow) (t : Time)
    (e : Bool) : List ScheduleRow :=
  if fault then tbl else upsert_schedule tbl t e

/-- the built-in default returned by `load_schedule`:
`time(9, 0), True`. -/
def default_schedule : Time × Bool := (⟨9, 0, 0⟩, true)

/-- `load_schedule`: `SELECT check_time, is_enabled ... WHERE id = 1`,
take the first row; fall back to the default when no row exists or the
read raises (`fault`). -/
def load_schedule (fault : Bool) (tbl : List ScheduleRow) : Time × Bool :=
  if fault then default_schedule
  else
    match tbl.find? (fun r => r.id == 1) with
    | some r => (r.check_time, r.is_enabled)
    | none => default_schedule

/-- one row of the `price_history` table; `created_at` is the
assignment-order timestamp (`DEFAULT CURRENT_TIMESTAMP`), modelled as the
insertion index. -/
structure PriceRow where
  date : Date
  time : Time
  price : Price
  created_at : Nat
deriving DecidableEq

/-- `update_price_history`: append one row built from the current wall
clock and the price; on a caught database error (`fault`) report it and
return `false` with the table unchanged. -/
def update_price_history (fault : Bool) (price : Price) (now : DateTime)
    (rows : List PriceRow) : List PriceRow × Bool :=
  if fault then (rows, false)
  else
    (rows ++ [{ date := now.date, time := ⟨now.hour, now.minute, now.second⟩,
                price := price, created_at := rows.length }], true)

/-- SQL `<=` on `DATE` values (year, then month, then day). -/
def dateLe (a b : Date) : Bool :=
  decide (a.year < b.year ∨ (a.year = b.year ∧
    (a.month < b.month ∨ (a.month = b.month ∧ a.day ≤ b.day))))

/-- SQL `<=` on `TIME` values (hour, then minute, then second). -/
def timeLe (a b : Time) : Bool :=
  decide (a.hour < b.hour ∨ (a.hour = b.hour ∧
    (a.minute < b.minute ∨ (a.minute = b.minute ∧ a.second ≤ b.second))))

/-- the comparator realised by `ORDER BY "Date" DESC, "Time" DESC`:
row `a` may precede row `b` exactly when `(a.date, a.time)` is
lexicographically at least `(b.date, b.time)`. -/
def histOrder (a b : PriceRow) : Bool :=
  if a.date = b.date then timeLe b.time a.time else dateLe b.date a.date

/-- `display_price_history`: read the full history ordered by
`"Date" DESC, "Time" DESC`; a caught read error (`fault`) shows the
info message instead of data (`none`). -/
def display_price_history (fault : Bool) (rows : List PriceRow) :
    Option (List PriceRow) :=
  if fault then none else some (rows.mergeSort histOrder)

/-- the session state of the scheduler: `st.session_state.schedule_time`,
`st.session_state.schedule_enabled`, `st.session_state.last_run_key`
(initialised to `None` in `main`). -/
structure SessionState where
  schedule_time : Time
  schedule_enabled : Bool
  last_run_key : Option String
deriving DecidableEq

/-- result of one run of the polled fragment: the new session state,
whether `run_price_check_job` was invoked, and the effects it issued. -/
structure TickResult where
  state : SessionState
  fired : Bool
  effects : List Effect
deriving DecidableEq

/-- `scheduled_check_fragment`, polled every 10 seconds: exit early if the
schedule is disabled; build `run_key` from the current date and the scheduled
time at `%H:%M` resolution; if the wall-clock hour and minute both equal
the scheduled ones and `last_run_key` differs from `run_key`, run the job
and then — whatever the own outcome `env` of the job was — record
`last_run_key := run_key`. -/
def scheduled_check_fragment (st : SessionState) (now : DateTime)
    (env : JobEnv) : TickResult :=
  if st.schedule_enabled = false then ⟨st, false, []⟩
  else
    let rk := run_key now.date st.schedule_time
    if now.hour = st.schedule_time.hour ∧ now.minute = st.schedule_time.minute ∧
        st.last_run_key ≠ some rk then
      ⟨{ st with last_run_key := some rk }, true, run_price_check_job env⟩
    else
      ⟨st, false, []⟩

/-- a sequence of fragment polls: thread the session state through the
ticks and count how many of them invoked the job. -/
def runTicks : SessionState → List (DateTime × JobEnv) → SessionState × Nat
  | st, [] => (st, 0)
  | st, tk :: rest =>
    let r := scheduled_check_fragment st tk.1 tk.2
    let tail := runTicks r.state rest
    (tail.1, (if r.fired then 1 else 0) + tail.2)

/-- the `on_schedule_settings_change` callback: copy the widget values
into the session state and persist them with `save_schedule`. -/
def on_schedule_settings_change (st : SessionState) (tbl : List ScheduleRow)
    (new_time : Time) (new_enabled : Bool) (fault : Bool) :
    SessionState × List ScheduleRow :=
  ({ st with schedule_time := new_time, schedule_enabled := new_enabled },
   save_schedule fault tbl new_time new_enabled)

/-- what `main` sends back for a given `endpoint` query parameter before
reaching the dashboard body. -/
inductive MainResponse where
  | jsonOut (fields : List (String × String))
  | dashboard
deriving DecidableEq

/-- the endpoint dispatch at the top of `main`: only the value `health`
is special-cased (returning `{"health": "green"}` and stopping); every
other request, whatever the store contains, falls through to the
dashboard UI. -/
def main_dispatch (endpoint : Option String) : MainResponse :=
  if endpoint = some "health" then MainResponse.jsonOut [("health", "green")]
  else MainResponse.dashboard

/-! Helper lemmas -/

lemma pad2_data_eq : ∀ n < 100,
    (pad2 n).data = [Nat.digitChar (n / 10), Nat.digitChar (n % 10)] := by
  decide

lemma digitChar_inj : ∀ a < 10, ∀ b < 10,
    Nat.digitChar a = Nat.digitChar b → a = b := by
  decide

/-- the minute-resolution clock string determines hour and minute within
their calendar ranges. -/
lemma hm_data_inj (t1 t2 : Time) (h1h : t1.hour < 24) (h1m : t1.minute < 60)
    (h2h : t2.hour < 24) (h2m : t2.minute < 60)
    (heq : (Time.hm t1).data = (Time.hm t2).data) :
    t1.hour = t2.hour ∧ t1.minute = t2.minute := by
  simp only [Time.hm] at heq
  rw [String.data_append, String.data_append, String.data_append,
    String.data_append] at heq
  rw [pad2_data_eq t1.hour (by omega), pad2_data_eq t2.hour (by omega),
    pad2_data_eq t1.minute (by omega), pad2_data_eq t2.minute (by omega)] at heq
  have hcolon : (":" : String).data = [':'] := rfl
  rw [hcolon] at heq
  simp only [List.cons_append, List.nil_append, List.cons.injEq,
    and_true] at heq
  obtain ⟨e1, e2, _, e3, e4⟩ := heq
  have g1 := digitChar_inj _ (by omega) _ (by omega) e1
  have g2 := digitChar_inj _ (by omega) _ (by omega) e2
  have g3 := digitChar_inj _ (by omega) _ (by omega) e3
  have g4 := digitChar_inj _ (by omega) _ (by omega) e4
  omega

/-- for a fixed date, slot keys of two times whose hour or minute differ
(within calendar ranges) are different strings. -/
lemma run_key_time_inj (d : Date) (t1 t2 : Time)
    (h1h : t1.hour < 24) (h1m : t1.minute < 60)
    (h2h : t2.hour < 24) (h2m : t2.minute < 60)
    (heq : run_key d t1 = run_key d t2) :
    t1.hour = t2.hour ∧ t1.minute = t2.minute := by
  have h := congrArg String.data heq
  simp only [run_key, String.data_append] at h
  exact hm_data_inj t1 t2 h1h h1m h2h h2m (List.append_cancel_left h)

/-- a tick whose slot key is already recorded leaves the state unchanged
and does not run the job. -/
lemma tick_noop_of_marked (st : SessionState) (now : DateTime) (env : JobEnv)
    (hkey : st.last_run_key = some (run_key now.date st.schedule_time)) :
    scheduled_check_fragment st now env = ⟨st, false, []⟩ := by
  by_cases he : st.schedule_enabled = false
  · simp [scheduled_check_fragment, he]
  · simp [scheduled_check_fragment, he, hkey]

/-- a run of ticks that all carry an already-recorded slot key is a
complete no-op. -/
lemma runTicks_noop (st : SessionState) (ticks : List (DateTime × JobEnv))
    (hall : ∀ tk ∈ ticks,
      st.last_run_key = some (run_key tk.1.date st.schedule_time)) :
    runTicks st ticks = (st, 0) := by
  induction ticks with
  | nil => rfl
  | cons tk rest ih =>
    have h1 := tick_noop_of_marked st tk.1 tk.2 (hall tk (by simp))
    simp only [runTicks, h1]
    rw [ih (fun tk2 h2 => hall tk2 (List.mem_cons_of_mem _ h2))]
    rfl

/-- after the upsert, the row the loader reads back is exactly the saved
one. -/
lemma upsert_find (tbl : List ScheduleRow) (t : Time) (e : Bool) :
    (upsert_schedule tbl t e).find? (fun r => r.id == 1) = some ⟨1, t, e⟩ := by
  induction tbl with
  | nil => rfl
  | cons r rs ih =>
    rcases r with ⟨rid, rt, re⟩
    by_cases hr : rid = 1
    · subst hr
      simp [upsert_schedule, List.find?]
    · by_cases ha : rs.any (fun x => x.id == 1)
      · rw [upsert_schedule] at ih ⊢
        rw [if_pos (by simp [List.any_cons, ha])]
        rw [if_pos ha] at ih
        rw [List.map_cons]
        have hf : (if (ScheduleRow.mk rid rt re).id == 1
            then { ScheduleRow.mk rid rt re with check_time := t, is_enabled := e }
            else ScheduleRow.mk rid rt re) = ScheduleRow.mk rid rt re := by
          simp [hr]
        rw [hf, List.find?_cons_of_neg _ (by simp [hr])]
        exact ih
      · rw [upsert_schedule] at ih ⊢
        rw [if_neg (by simp [List.any_cons, ha, hr])]
        rw [if_neg (by simp [ha])] at ih
        rw [List.cons_append, List.find?_cons_of_neg _ (by simp [hr])]
        exact ih

/-- the upsert leaves exactly one schedule row with the singleton key:
it updates in place when one exists and inserts exactly one otherwise. -/
lemma upsert_countP (tbl : List ScheduleRow) (t : Time) (e : Bool)
    (h : tbl.countP (fun r => r.id == 1) ≤ 1) :
    (upsert_schedule tbl t e).countP (fun r => r.id == 1) = 1 := by
  by_cases ha : tbl.any (fun r => r.id == 1)
  · have hpos : 0 < tbl.countP (fun r => r.id == 1) :=
      List.countP_pos_iff.mpr (by simpa using List.any_eq_true.mp ha)
    rw [upsert_schedule, if_pos ha, List.countP_map]
    have hsame : tbl.countP
        ((fun r => r.id == 1) ∘ fun r =>
          if r.id == 1 then { r with check_time := t, is_enabled := e } else r)
        = tbl.countP (fun r => r.id == 1) := by
      apply List.countP_congr
      intro a _
      by_cases hid : a.id = 1 <;> simp [hid]
    rw [hsame]
    omega
  · have hzero : tbl.countP (fun r => r.id == 1) = 0 := by
      rw [List.countP_eq_zero]
      intro a hmem hpa
      exact ha (List.any_eq_true.mpr ⟨a, hmem, hpa⟩)
    rw [upsert_schedule, if_neg ha, List.countP_append, hzero]
    rfl

/-- `dateLe` is transitive. -/
lemma dateLe_trans (a b c : Date) (h1 : dateLe a b = true)
    (h2 : dateLe b c = true) : dateLe a c = true := by
  simp only [dateLe, decide_eq_true_eq] at h1 h2 ⊢
  omega

/-- `dateLe` is total. -/
lemma dateLe_total (a b : Date) : (dateLe a b || dateLe b a) = true := by
  simp only [dateLe, Bool.or_eq_true, decide_eq_true_eq]
  omega

/-- `dateLe` is antisymmetric. -/
lemma dateLe_antisymm (a b : Date) (h1 : dateLe a b = true)
    (h2 : dateLe b a = true) : a = b := by
  cases a
  cases b
  simp only [dateLe, decide_eq_true_eq] at h1 h2
  simp only [Date.mk.injEq]
  omega

/-- `timeLe` is transitive. -/
lemma timeLe_trans (a b c : Time) (h1 : timeLe a b = true)
    (h2 : timeLe b c = true) : timeLe a c = true := by
  simp only [timeLe, decide_eq_true_eq] at h1 h2 ⊢
  omega

/-- `timeLe` is total. -/
lemma timeLe_total (a b : Time) : (timeLe a b || timeLe b a) = true := by
  simp only [timeLe, Bool.or_eq_true, decide_eq_true_eq]
  omega

/-- the descending history comparator is transitive. -/
lemma histOrder_trans (a b c : PriceRow) (hab : histOrder a b = true)
    (hbc : histOrder b c = true) : histOrder a c = true := by
  rw [histOrder] at hab hbc ⊢
  by_cases h1 : a.date = b.date <;> by_cases h2 : b.date = c.date
  · rw [if_pos h1] at hab
    rw [if_pos h2] at hbc
    rw [if_pos (h1.trans h2)]
    exact timeLe_trans _ _ _ hbc hab
  · rw [if_neg h2] at hbc
    rw [if_neg (fun h => h2 (h1.symm.trans h))]
    rw [h1]
    exact hbc
  · rw [if_neg h1] at hab
    rw [if_neg (fun h => h1 (h.trans h2.symm))]
    rw [← h2]
    exact hab
  · rw [if_neg h1] at hab
    rw [if_neg h2] at hbc
    by_cases hac : a.date = c.date
    · exfalso
      rw [hac] at hab
      exact h2 (dateLe_antisymm _ _ hbc hab).symm
    · rw [if_neg hac]
      exact dateLe_trans _ _ _ hbc hab

/-- the descending history comparator is total. -/
lemma histOrder_total (a b : PriceRow) :
    (histOrder a b || histOrder b a) = true := by
  by_cases h : a.date = b.date
  · rw [histOrder, histOrder, if_pos h, if_pos h.symm]
    exact timeLe_total b.time a.time
  · rw [histOrder, histOrder, if_neg h, if_neg (fun hh => h hh.symm)]
    exact dateLe_total b.date a.date

/-! Claim theorems -/

/-- Claim C1.  The claim states that `main` answers a request whose query
parameter selects the latest price with a `latestPrice`/`timestamp` JSON
document (or an error JSON).  The endpoint dispatch in `main` special-cases
only the value `health`; a request with `endpoint=latestPrice` falls
through to the dashboard UI, whatever the store contains, and no JSON
document is emitted, contradicting the claim (and the tests the repository ships for that endpoint).  This theorem evaluates the dispatch at the
failing input and at `health` for contrast. -/
theorem c1_no_latest_price_endpoint :
    main_dispatch (some "latestPrice") = MainResponse.dashboard ∧
    main_dispatch (some "health") = MainResponse.jsonOut [("health", "green")] := by
  decide

/-- Claim C2, counterexample.  On an input where the scrape succeeds and
the database insert succeeds, the manual `Check Price Now` handler issues
a different effect sequence from `run_price_check_job`: the job notifies,
the button handler does not. -/
theorem c2_counterexample :
    check_price_now ⟨some 1399, true⟩ ≠ run_price_check_job ⟨some 1399, true⟩ := by
  decide

/-- Claim C2 as amended: on every input, the manual `Check Price Now`
trigger issues exactly the fetch and append effects of
`run_price_check_job`, in the same order, but never the notify effect —
its trace equals the trace of the job with notify effects removed. -/
theorem c2_manual_trigger_no_notify (env : JobEnv) :
    check_price_now env = (run_price_check_job env).filter (fun e => !e.isNotify) := by
  rcases env with ⟨fr, ok⟩
  cases fr <;> cases ok <;> rfl

/-- Claim C4.  In every run of `run_price_check_job` the effect trace
starts with the fetch; a failed fetch produces no append and no notify; a
notify effect occurs only in the trace in which the append succeeded, and
there it strictly follows the append, which strictly follows the fetch. -/
theorem c4_effect_order (env : JobEnv) :
    (run_price_check_job env).head? = some (Effect.fetch env.fetchResult) ∧
    (env.fetchResult = none → run_price_check_job env = [Effect.fetch none]) ∧
    (env.appendOk = false → ∀ p : Price, Effect.notify p ∉ run_price_check_job env) ∧
    (∀ p : Price, Effect.notify p ∈ run_price_check_job env →
      run_price_check_job env =
        [Effect.fetch (some p), Effect.append p true, Effect.notify p]) := by
  rcases env with ⟨fr, ok⟩
  cases fr with
  | none => cases ok <;> simp [run_price_check_job]
  | some p0 =>
    cases ok <;> simp [run_price_check_job]

/-- Claim C4, witness at a successful fetch and append. -/
theorem c4_witness :
    run_price_check_job ⟨some 1399, true⟩ =
      [Effect.fetch (some 1399), Effect.append 1399 true, Effect.notify 1399] :=
  (c4_effect_order ⟨some 1399, true⟩).2.2.2 1399 (by decide)

/-- Claim C5.  Starting from a table holding at most one singleton-key
row (which the schema initialisation guarantees), saving a
`(time, enabled)` pair and then loading returns exactly that pair, and
the table holds exactly one singleton-key row afterwards — the upsert
never produces a second record and never mixes old and new fields. -/
theorem c5_save_load_roundtrip (tbl : List ScheduleRow) (t : Time) (e : Bool)
    (h : tbl.countP (fun r => r.id == 1) ≤ 1) :
    load_schedule false (save_schedule false tbl t e) = (t, e) ∧
    (save_schedule false tbl t e).countP (fun r => r.id == 1) = 1 := by
  constructor
  · rw [load_schedule, save_schedule, if_neg (by simp), if_neg (by simp),
      upsert_find]
  · rw [save_schedule, if_neg (by simp)]
    exact upsert_countP tbl t e h

/-- Claim C5, witness: saving (14:30, disabled) over the freshly
initialised default row and loading returns exactly (14:30, disabled). -/
theorem c5_witness :
    load_schedule false
        (save_schedule false [⟨1, ⟨9, 0, 0⟩, true⟩] ⟨14, 30, 0⟩ false)
      = (⟨14, 30, 0⟩, false) ∧
    (save_schedule false [⟨1, ⟨9, 0, 0⟩, true⟩] ⟨14, 30, 0⟩ false).countP
        (fun r => r.id == 1) = 1 :=
  c5_save_load_roundtrip [⟨1, ⟨9, 0, 0⟩, true⟩] ⟨14, 30, 0⟩ false (by decide)

/-- Claim C6.  `load_schedule` returns the built-in default
(09:00, enabled) both when no singleton row exists and when the read
fails; being a total function it raises nothing. -/
theorem c6_load_defaults (fault : Bool) (tbl : List ScheduleRow)
    (h : fault = true ∨ tbl.find? (fun r => r.id == 1) = none) :
    load_schedule fault tbl = (⟨9, 0, 0⟩, true) := by
  rcases h with h | h
  · subst h
    rfl
  · cases fault
    · rw [load_schedule, if_neg (by simp), h]
      rfl
    · rfl

/-- Claim C6, witness: loading from an empty table and loading under a
read fault both return the default. -/
theorem c6_witness : load_schedule false [] = (⟨9, 0, 0⟩, true) :=
  c6_load_defaults false [] (Or.inr (by decide))

/-- Claim C3.  With the schedule enabled and the slot not yet recorded,
any nonempty run of ticks inside the matching minute of one day invokes
the job exactly once; whatever job outcome `env` each tick carries, the
first tick records the slot key, so every later tick of the slot is a
no-op, and the final state carries exactly that key. -/
theorem c3_at_most_one_run_per_slot (st : SessionState) (d : Date)
    (ticks : List (DateTime × JobEnv))
    (henabled : st.schedule_enabled = true)
    (hfresh : st.last_run_key ≠ some (run_key d st.schedule_time))
    (hne : ticks ≠ [])
    (hall : ∀ tk ∈ ticks, tk.1.date = d ∧
      tk.1.hour = st.schedule_time.hour ∧ tk.1.minute = st.schedule_time.minute) :
    (runTicks st ticks).2 = 1 ∧
    (runTicks st ticks).1.last_run_key = some (run_key d st.schedule_time) ∧
    (runTicks st ticks).1.schedule_time = st.schedule_time := by
  obtain ⟨tk, rest, rfl⟩ := List.exists_cons_of_ne_nil hne
  obtain ⟨hd, hh, hm⟩ := hall tk (by simp)
  have hfrag : scheduled_check_fragment st tk.1 tk.2 =
      ⟨{ st with last_run_key := some (run_key d st.schedule_time) }, true,
        run_price_check_job tk.2⟩ := by
    simp only [scheduled_check_fragment, henabled]
    rw [if_neg (by simp), hd, if_pos ⟨hh, hm, hfresh⟩]
  have hrest : runTicks
      { st with last_run_key := some (run_key d st.schedule_time) } rest =
      ({ st with last_run_key := some (run_key d st.schedule_time) }, 0) := by
    apply runTicks_noop
    intro tk2 h2
    obtain ⟨hd2, _, _⟩ := hall tk2 (List.mem_cons_of_mem _ h2)
    rw [hd2]
  simp only [runTicks, hfrag, hrest]
  simp

/-- Claim C3, witness: three ticks inside the matching minute, with the
job succeeding on the first and failing afterwards, fire exactly once and
leave the slot key recorded. -/
theorem c3_witness :
    (runTicks ⟨⟨9, 5, 0⟩, true, none⟩
        [(⟨⟨2024, 1, 15⟩, 9, 5, 10⟩, ⟨some 1399, true⟩),
         (⟨⟨2024, 1, 15⟩, 9, 5, 30⟩, ⟨none, false⟩),
         (⟨⟨2024, 1, 15⟩, 9, 5, 50⟩, ⟨some 1200, false⟩)]).2 = 1 ∧
    (runTicks ⟨⟨9, 5, 0⟩, true, none⟩
        [(⟨⟨2024, 1, 15⟩, 9, 5, 10⟩, ⟨some 1399, true⟩),
         (⟨⟨2024, 1, 15⟩, 9, 5, 30⟩, ⟨none, false⟩),
         (⟨⟨2024, 1, 15⟩, 9, 5, 50⟩, ⟨some 1200, false⟩)]).1.last_run_key
      = some (run_key ⟨2024, 1, 15⟩ ⟨9, 5, 0⟩) ∧
    (runTicks ⟨⟨9, 5, 0⟩, true, none⟩
        [(⟨⟨2024, 1, 15⟩, 9, 5, 10⟩, ⟨some 1399, true⟩),
         (⟨⟨2024, 1, 15⟩, 9, 5, 30⟩, ⟨none, false⟩),
         (⟨⟨2024, 1, 15⟩, 9, 5, 50⟩, ⟨some 1200, false⟩)]).1.schedule_time
      = ⟨9, 5, 0⟩ :=
  c3_at_most_one_run_per_slot ⟨⟨9, 5, 0⟩, true, none⟩ ⟨2024, 1, 15⟩ _
    (by decide) (by decide) (by decide) (by decide)

/-- Claim C7.  With the schedule disabled, a run of ticks of any length,
at any wall-clock instants — matching the scheduled minute or not — never
invokes the job and never changes the session state. -/
theorem c7_disabled_never_runs (st : SessionState)
    (ticks : List (DateTime × JobEnv)) (h : st.schedule_enabled = false) :
    runTicks st ticks = (st, 0) := by
  induction ticks with
  | nil => rfl
  | cons tk rest ih =>
    have h1 : scheduled_check_fragment st tk.1 tk.2 = ⟨st, false, []⟩ := by
      simp [scheduled_check_fragment, h]
    simp only [runTicks, h1, ih]
    rfl

/-- Claim C7, witness: a disabled schedule ignores a tick that lands
exactly on the scheduled minute. -/
theorem c7_witness :
    runTicks ⟨⟨9, 5, 0⟩, false, none⟩
      [(⟨⟨2024, 1, 15⟩, 9, 5, 10⟩, ⟨some 1399, true⟩)]
      = (⟨⟨9, 5, 0⟩, false, none⟩, 0) :=
  c7_disabled_never_runs ⟨⟨9, 5, 0⟩, false, none⟩ _ (by decide)

/-- execution trace refuting claim C8, step 1: at 09:05:10 on 2024-01-15
with the schedule set to 09:05 and enabled, the fragment fires and records
the slot key `2024-01-15-09:05`. -/
def c8_state_after_run : SessionState :=
  (scheduled_check_fragment ⟨⟨9, 5, 0⟩, true, none⟩
    ⟨⟨2024, 1, 15⟩, 9, 5, 10⟩ ⟨some 1399, true⟩).state

/-- step 2: still inside the same minute, the operator moves the check
time to 09:06. -/
def c8_state_after_first_change : SessionState :=
  (on_schedule_settings_change c8_state_after_run [] ⟨9, 6, 0⟩ true false).1

/-- step 3: the operator moves the check time back to 09:05 — a change to
a value equal to the current wall-clock minute, made while enabled. -/
def c8_state_after_second_change : SessionState :=
  (on_schedule_settings_change c8_state_after_first_change [] ⟨9, 5, 0⟩ true
    false).1

/-- Claim C8, counterexample.  After the recorded trace — the job fired at
09:05 and recorded slot key `2024-01-15-09:05`, then the schedule time was
changed to 09:06 and changed again to 09:05 while the clock still reads
09:05 — the schedule time was just changed to a value equal to the current
wall-clock minute while enabled, yet the slot key computed on the next
tick equals the previously recorded `last_run_key`, and the job does not
fire on that tick, contradicting the claim that the new slot key differs
from any previously recorded one and the job fires. -/
theorem c8_counterexample :
    c8_state_after_run.last_run_key
        = some (run_key ⟨2024, 1, 15⟩ ⟨9, 5, 0⟩) ∧
    c8_state_after_second_change.schedule_enabled = true ∧
    c8_state_after_second_change.schedule_time = ⟨9, 5, 0⟩ ∧
    c8_state_after_second_change.last_run_key
        = some (run_key ⟨2024, 1, 15⟩ ⟨9, 5, 0⟩) ∧
    (scheduled_check_fragment c8_state_after_second_change
        ⟨⟨2024, 1, 15⟩, 9, 5, 50⟩ ⟨some 1399, true⟩).fired = false := by
  decide

/-- Claim C8 as amended: if, while enabled, the schedule time is changed
to a value whose hour or minute differs from the time under which the
current `last_run_key` was recorded (times within calendar range, same
calendar day), and the new value equals the current wall-clock minute,
then the slot key on the next tick differs from `last_run_key` and the
job fires on that tick. -/
theorem c8_time_change_fires (st : SessionState) (tbl : List ScheduleRow)
    (d : Date) (t_old t_new : Time) (now : DateTime) (env : JobEnv)
    (fault : Bool)
    (h1 : t_old.hour < 24) (h2 : t_old.minute < 60)
    (h3 : t_new.hour < 24) (h4 : t_new.minute < 60)
    (hkey : st.last_run_key = some (run_key d t_old))
    (hdiff : t_new.hour ≠ t_old.hour ∨ t_new.minute ≠ t_old.minute)
    (hd : now.date = d) (hh : now.hour = t_new.hour)
    (hmin : now.minute = t_new.minute) :
    (scheduled_check_fragment
        (on_schedule_settings_change st tbl t_new true fault).1 now env).fired
      = true := by
  have hne : run_key d t_new ≠ run_key d t_old := by
    intro heq
    obtain ⟨ha, hb⟩ := run_key_time_inj d t_new t_old h3 h4 h1 h2 heq
    rcases hdiff with hne1 | hne1
    · exact hne1 ha
    · exact hne1 hb
  have hguard : st.last_run_key ≠ some (run_key d t_new) := by
    rw [hkey]
    intro hc
    exact hne (Option.some.inj hc).symm
  simp only [on_schedule_settings_change, scheduled_check_fragment]
  rw [if_neg (by simp), hd, if_pos ⟨hh, hmin, hguard⟩]

/-- Claim C8 amended, witness: the slot ran under schedule time 09:06;
while the clock reads 09:05:40 the time is changed to 09:05, and the next
tick fires. -/
theorem c8_witness :
    (scheduled_check_fragment
        (on_schedule_settings_change
          ⟨⟨9, 6, 0⟩, true, some (run_key ⟨2024, 1, 15⟩ ⟨9, 6, 0⟩)⟩ []
          ⟨9, 5, 0⟩ true false).1
        ⟨⟨2024, 1, 15⟩, 9, 5, 40⟩ ⟨some 1399, true⟩).fired = true :=
  c8_time_change_fires
    ⟨⟨9, 6, 0⟩, true, some (run_key ⟨2024, 1, 15⟩ ⟨9, 6, 0⟩)⟩ []
    ⟨2024, 1, 15⟩ ⟨9, 6, 0⟩ ⟨9, 5, 0⟩ ⟨⟨2024, 1, 15⟩, 9, 5, 40⟩
    ⟨some 1399, true⟩ false
    (by decide) (by decide) (by decide) (by decide) (by decide)
    (by decide) (by decide) (by decide) (by decide)

/-- Claim C9.  The history read (with no store fault) returns exactly the
stored observations — a permutation of the table — ordered by
(date descending, time descending), and on an empty table it returns the
empty sequence rather than an error. -/
theorem c9_history_ordered (rows : List PriceRow) :
    display_price_history false rows = some (rows.mergeSort histOrder) ∧
    List.Perm (rows.mergeSort histOrder) rows ∧
    (rows.mergeSort histOrder).Pairwise (fun a b => histOrder a b = true) ∧
    display_price_history false [] = some [] := by
  refine ⟨rfl, List.mergeSort_perm rows histOrder, ?_, ?_⟩
  · exact List.sorted_mergeSort
      (fun a b c hab hbc => histOrder_trans a b c hab hbc)
      (fun a b => histOrder_total a b) rows
  · rw [display_price_history, if_neg (by simp), List.mergeSort_nil]

/-- Claim C10.  The scheduler works at minute resolution: for two
schedule times that agree on hour and minute (any seconds), the fragment
makes the same fire decision, produces the same slot key, and leaves the
same run marker. -/
theorem c10_minute_resolution (st : SessionState) (t1 t2 : Time)
    (now : DateTime) (env : JobEnv)
    (hh : t1.hour = t2.hour) (hmin : t1.minute = t2.minute) :
    run_key now.date t1 = run_key now.date t2 ∧
    (scheduled_check_fragment { st with schedule_time := t1 } now env).fired
      = (scheduled_check_fragment { st with schedule_time := t2 } now env).fired ∧
    (scheduled_check_fragment { st with schedule_time := t1 } now env).state.last_run_key
      = (scheduled_check_fragment { st with schedule_time := t2 } now env).state.last_run_key := by
  have hk : Time.hm t1 = Time.hm t2 := by
    simp only [Time.hm, hh, hmin]
  have hrk : run_key now.date t1 = run_key now.date t2 := by
    simp only [run_key, hk]
  refine ⟨hrk, ?_, ?_⟩ <;>
  · simp only [scheduled_check_fragment, hrk, hh, hmin]
    by_cases he : st.schedule_enabled = false
    · rw [if_pos he, if_pos he]
    · rw [if_neg he, if_neg he]
      by_cases hc : now.hour = t2.hour ∧ now.minute = t2.minute ∧
          st.last_run_key ≠ some (run_key now.date t2)
      · rw [if_pos hc, if_pos hc]
      · rw [if_neg hc, if_neg hc]

/-- Claim C10, witness: schedule times 09:05:00 and 09:05:30 produce the
same slot key and the same firing decision on a tick at 09:05:10. -/
theorem c10_witness :
    run_key ⟨2024, 1, 15⟩ ⟨9, 5, 0⟩ = run_key ⟨2024, 1, 15⟩ ⟨9, 5, 30⟩ ∧
    (scheduled_check_fragment ⟨⟨9, 5, 0⟩, true, none⟩
        ⟨⟨2024, 1, 15⟩, 9, 5, 10⟩ ⟨some 1399, true⟩).fired
      = (scheduled_check_fragment ⟨⟨9, 5, 30⟩, true, none⟩
        ⟨⟨2024, 1, 15⟩, 9, 5, 10⟩ ⟨some 1399, true⟩).fired ∧
    (scheduled_check_fragment ⟨⟨9, 5, 0⟩, true, none⟩
        ⟨⟨2024, 1, 15⟩, 9, 5, 10⟩ ⟨some 1399, true⟩).state.last_run_key
      = (scheduled_check_fragment ⟨⟨9, 5, 30⟩, true, none⟩
        ⟨⟨2024, 1, 15⟩, 9, 5, 10⟩ ⟨some 1399, true⟩).state.last_run_key :=
  c10_minute_resolution ⟨⟨9, 5, 0⟩, true, none⟩ ⟨9, 5, 0⟩ ⟨9, 5, 30⟩
    ⟨⟨2024, 1, 15⟩, 9, 5, 10⟩ ⟨some 1399, true⟩ (by decide) (by decide)

end PriceTracker
